import Mathlib

/-!
Shallow embedding of the META-CRM lead/token synchronization core
(`facebookLeadService`, `facebookLeadController`, `facebookTokenService`,
`analyticsService`, and the Mongoose models `Lead`, `User`, `Form`,
`Analytics`), together with proofs of the spec's testable properties.

Dates are modelled as natural numbers (milliseconds since the epoch).
JavaScript truthiness of strings ("" is falsy) and `String.prototype.trim`
are modelled explicitly.  The persistent store is modelled as a list of
documents; `findOneAndUpdate` with `upsert` is modelled as update-first-
match-or-append, mirroring Mongoose's `$set` interpretation of operator-free
update documents (fields absent from the update document are preserved).
-/

namespace MetaCRM

/-- Time in milliseconds since the epoch. -/
abbrev Time := Nat

/-! ### JavaScript string primitives -/

/-- Whitespace as recognised by `String.prototype.trim` (common cases). -/
def jsIsWs (c : Char) : Bool :=
  c == ' ' || c == '\t' || c == '\n' || c == '\r'

/-- `String.prototype.trim`: strip leading and trailing whitespace. -/
def jsTrim (s : String) : String :=
  ⟨((s.data.dropWhile jsIsWs).reverse.dropWhile jsIsWs).reverse⟩

/-- `s.toLowerCase()`. -/
def jsLower (s : String) : String := s.toLower

/-- `v || d` for a possibly-missing string `v`: JavaScript `||` falls through
to the default when `v` is `undefined`/`null` or the empty string. -/
def jsOrStr (v : Option String) (d : String) : String :=
  match v with
  | some s => if s = "" then d else s
  | none => d

/-- `v || null` for a possibly-missing string: collapses the falsy empty
string to `null`. -/
def jsOrNull (v : Option String) : Option String :=
  match v with
  | some s => if s = "" then none else some s
  | none => none

/-- Truthiness of a possibly-missing string. -/
def jsTruthy (v : Option String) : Bool :=
  match v with
  | some s => s != ""
  | none => false

/-! ### Generic store helper: update the first matching document
(`findOneAndUpdate` touches a single document). -/

def updateFirst (p : α → Bool) (f : α → α) : List α → List α
  | [] => []
  | x :: xs => if p x then f x :: xs else x :: updateFirst p f xs

/-! ### Lead documents (`server/models/Lead.js`) -/

inductive LeadStatus
  | new
  | contacted
  | qualified
  | converted
  | lost
deriving DecidableEq, Repr

structure FieldPair where
  name : String
  value : Option String
deriving DecidableEq, Repr

/-- The `rawData` attribution block built by `normalizeLead`. -/
structure RawAttribution where
  platform : String
  campaignName : String
  adsetName : String
  adName : String
  adId : String
deriving DecidableEq, Repr

/-- A stored `Lead` document. -/
structure Lead where
  userId : String
  formId : String
  formName : Option String
  pageId : Option String
  pageName : Option String
  leadId : String
  fullName : Option String
  email : Option String
  phone : Option String
  createdTime : Time
  fieldData : List FieldPair
  rawData : RawAttribution
  status : LeadStatus
  notes : Option String
  lastSyncedAt : Time
deriving DecidableEq, Repr

abbrev LeadStore := List Lead

def findByLeadId (store : LeadStore) (lid : String) : Option Lead :=
  store.find? (fun l => l.leadId == lid)

def countLeadId (store : LeadStore) (lid : String) : Nat :=
  (store.filter (fun l => l.leadId == lid)).length

/-! ### Raw upstream lead payloads and `normalizeLead`
(`facebookLeadService.normalizeLead`) -/

/-- One entry of the raw `field_data` array.  `values = none` models a
missing or non-array `values`. -/
structure RawField where
  name : Option String
  values : Option (List String)
deriving DecidableEq, Repr

/-- A raw lead object from the Graph API.  Every field the code inspects is
optional, as in the payload. -/
structure RawLead where
  id : Option String
  created_time : Option Time
  field_data : Option (List RawField)
  form_id : Option String
  platform : Option String
  campaign_name : Option String
  adset_name : Option String
  ad_name : Option String
  ad_id : Option String
deriving DecidableEq, Repr

/-- Output of `normalizeLead` (before the caller adds `userId`). -/
structure NormalizedLead where
  leadId : String
  formId : String
  formName : Option String
  pageId : Option String
  pageName : Option String
  createdTime : Time
  fullName : Option String
  email : Option String
  phone : Option String
  fieldData : List FieldPair
  rawData : RawAttribution
deriving DecidableEq, Repr

/-- The per-entry normalization inside `normalizeLead`: missing/empty
`values` yields a null value; the name is lowercased, defaulting to
`"unknown"` when absent or empty. -/
def normalizeField (f : RawField) : FieldPair :=
  match f.values with
  | none => { name := jsOrStr (f.name.map jsLower) "unknown", value := none }
  | some [] => { name := jsOrStr (f.name.map jsLower) "unknown", value := none }
  | some (v :: _) => { name := jsOrStr (f.name.map jsLower) "unknown", value := some v }

structure ContactFields where
  fullName : Option String
  email : Option String
  phone : Option String
deriving DecidableEq, Repr

/-- The alias-matching loop of `normalizeLead` extracting
fullName/email/phone; later matches overwrite earlier ones. -/
def extractContact (fieldData : List FieldPair) : ContactFields :=
  fieldData.foldl
    (fun acc field =>
      let fieldName := jsLower field.name
      if fieldName = "full_name" ∨ fieldName = "name" ∨ fieldName = "full name" then
        { acc with fullName := field.value }
      else if fieldName = "email" ∨ fieldName = "email address" then
        { acc with email := field.value }
      else if fieldName = "phone" ∨ fieldName = "phone number" ∨ fieldName = "mobile"
          ∨ fieldName = "contact" then
        { acc with phone := field.value }
      else acc)
    ⟨none, none, none⟩

/-- The object built by `normalizeLead` for a well-formed (object) input.
`now` models `new Date()` for a missing `created_time`. -/
def normalizeLeadObj (lead : RawLead) (formId : String)
    (formName pageId pageName : Option String) (now : Time) : NormalizedLead :=
  let fieldData := (lead.field_data.getD []).map normalizeField
  let c := extractContact fieldData
  { leadId := jsOrStr lead.id "unknown"
    formId := jsOrStr lead.form_id formId
    formName := jsOrNull formName
    pageId := jsOrNull pageId
    pageName := jsOrNull pageName
    createdTime := lead.created_time.getD now
    fullName := c.fullName
    email := c.email
    phone := c.phone
    fieldData := fieldData
    rawData :=
      { platform := jsOrStr lead.platform "unknown"
        campaignName := jsOrStr lead.campaign_name "unknown"
        adsetName := jsOrStr lead.adset_name "unknown"
        adName := jsOrStr lead.ad_name "unknown"
        adId := jsOrStr lead.ad_id "unknown" } }

/-- `normalizeLead`: throws `Invalid lead data received` when the argument is
not an object (modelled by `none`); otherwise total. -/
def normalizeLead (lead : Option RawLead) (formId : String)
    (formName pageId pageName : Option String) (now : Time) :
    Except String NormalizedLead :=
  match lead with
  | none => .error "Invalid lead data received"
  | some l => .ok (normalizeLeadObj l formId formName pageId pageName now)

/-! ### Upstream leads endpoint (`facebookLeadService.fetchLeadsForForm`) -/

/-- One page of the upstream `{form}/leads` response: `data = none` models a
response body without a `data` array; `hasNext` models the presence of
`paging.next`. List entries that are not objects are `none`. -/
structure RawPage where
  data : Option (List (Option RawLead))
  hasNext : Bool
deriving DecidableEq, Repr

/-- The sequence of responses the upstream returns to the successive
(first-page, then cursor-following) requests of one form fetch; `.error`
models a non-2xx response. -/
abbrev UpstreamPages := List (Except String RawPage)

/-- The query parameters `fetchLeadsForForm` builds for a `{form}/leads`
request: `since` and `after` are appended only when provided. -/
structure LeadsRequestParams where
  formId : String
  limit : Nat
  since : Option Time
  after : Option String
deriving DecidableEq, Repr

def buildLeadsParams (formId : String) (limit : Nat) (since : Option Time)
    (after : Option String) : LeadsRequestParams :=
  { formId := formId, limit := limit, since := since, after := after }

/-- `fetchLeadsForForm`: consumes upstream pages in order.  A missing
response body is an error; a page without a `data` array returns the empty
list (skipping pagination); leads whose normalization throws are dropped
(`.filter(lead => lead !== null)`); a failure while following `paging.next`
is caught and the leads gathered so far are returned. -/
def fetchLeadsForForm (formId : String) (formName pageId pageName : Option String)
    (now : Time) : UpstreamPages → Except String (List NormalizedLead)
  | [] => .error "Empty response from Facebook API"
  | .error e :: _ => .error ("Facebook API Error: " ++ e)
  | .ok page :: rest =>
    match page.data with
    | none => .ok []
    | some items =>
      let normalized := items.filterMap (fun raw =>
        match normalizeLead raw formId formName pageId pageName now with
        | .ok nl => some nl
        | .error _ => none)
      if page.hasNext then
        match fetchLeadsForForm formId formName pageId pageName now rest with
        | .ok more => .ok (normalized ++ more)
        | .error _ => .ok normalized
      else
        .ok normalized

/-! ### Users and credentials (`server/models/User.js`) -/

/-- An embedded `facebookApps` credential.  `mongoId` is the subdocument's
`_id`. -/
structure FBApp where
  mongoId : String
  appId : Option String
  appName : Option String
  accessToken : String
  tokenType : String
  expiresAt : Option Time
  createdAt : Option Time
deriving DecidableEq, Repr

structure User where
  mongoId : String
  accessToken : Option String
  facebookApps : List FBApp
  facebookAppId : Option String
  facebookAppSecret : Option String
deriving DecidableEq, Repr

def findUserById (users : List User) (userId : String) : Option User :=
  users.find? (fun u => u.mongoId == userId)

/-! ### Forms (`server/models/Form.js`) -/

structure Form where
  mongoId : String
  userId : String
  formId : String
  formName : Option String
  pageId : Option String
  pageName : Option String
  facebookAppId : Option String
  lastFetchedAt : Option Time
  isActive : Bool
deriving DecidableEq, Repr

/-! ### Credential resolution (`facebookLeadService.validateUserConfig`) -/

structure ResolvedCredential where
  accessToken : String
  appId : String
deriving DecidableEq, Repr

/-- Steps 2–4 of `validateUserConfig`: first stored credential, then the
legacy token, then failure. -/
def resolveFallback (user : User) : Except String ResolvedCredential :=
  match user.facebookApps with
  | app :: _ => .ok { accessToken := app.accessToken, appId := app.mongoId }
  | [] =>
    if jsTruthy user.accessToken then
      .ok { accessToken := user.accessToken.getD "", appId := "legacy" }
    else
      .error "Facebook Access Token is required"

/-- `validateUserConfig userId appId`: an explicit (truthy) `appId` is
consulted only when the credential list is non-empty; it then either selects
the matching credential or fails.  Otherwise resolution falls through to the
first credential / legacy token. -/
def validateUserConfig (users : List User) (userId : String)
    (appId : Option String) : Except String ResolvedCredential :=
  match findUserById users userId with
  | none => .error "User not found"
  | some user =>
    match appId with
    | some aid =>
      if aid ≠ "" ∧ user.facebookApps.length > 0 then
        match user.facebookApps.find? (fun app => app.mongoId == aid) with
        | some app => .ok { accessToken := app.accessToken, appId := app.mongoId }
        | none => .error "Facebook app not found"
      else
        resolveFallback user
    | none => resolveFallback user

/-! ### Target-form resolution (inside `fetchFacebookLeads`) -/

/-- Resolve the forms a sync targets: an explicit `formId` selects that one
form (matched by `_id` or by upstream `formId`, scoped to the user); else
all active forms of the user, filtered to `facebookAppId = appId` when a
truthy non-legacy `appId` was passed. -/
def resolveForms (forms : List Form) (userId : String)
    (formId appId : Option String) : Except String (List Form) :=
  match formId with
  | some fid =>
    match forms.find? (fun f => f.userId == userId && (f.mongoId == fid || f.formId == fid)) with
    | some f => .ok [f]
    | none => .error ("Form not found: " ++ fid)
  | none =>
    let matching := forms.filter (fun f =>
      f.userId == userId && f.isActive &&
      (match appId with
       | some aid => if aid ≠ "" ∧ aid ≠ "legacy" then f.facebookAppId == some aid else true
       | none => true))
    if matching.isEmpty then .error "No active forms found for this user"
    else .ok matching

/-! ### The per-form sync loop (`facebookLeadService.fetchFacebookLeads`) -/

/-- A normalized lead with the `userId` the service spreads onto it. -/
structure ProcessedLead extends NormalizedLead where
  userId : String
deriving DecidableEq, Repr

/-- The per-form loop: fetch and normalize each target form's leads, add the
user id, and set the form's `lastFetchedAt` to now (via `form.save()`) after
processing it.  An upstream failure for a form propagates as the thrown
error, but the `lastFetchedAt` saves of the forms already processed remain
in the store (the second component). -/
def syncFormsLoop (upstream : String → UpstreamPages) (userId : String)
    (since : Option Time) (now : Time) :
    List Form → List Form → Except String (List ProcessedLead) × List Form
  | [], store => (.ok [], store)
  | form :: rest, store =>
    match fetchLeadsForForm form.formId form.formName form.pageId form.pageName now
        (upstream form.formId) with
    | .error e => (.error e, store)
    | .ok formLeads =>
      let processed := formLeads.map (fun nl => { nl with userId := userId })
      let store' := store.map (fun f =>
        if f.mongoId == form.mongoId then { f with lastFetchedAt := some now } else f)
      match syncFormsLoop upstream userId since now rest store' with
      | (.error e, st) => (.error e, st)
      | (.ok ls, st) => (.ok (processed ++ ls), st)

/-- The prefix of the target forms a run actually processes: the loop stops
at the first form whose upstream fetch throws. -/
def processedForms (upstream : String → UpstreamPages) (now : Time) :
    List Form → List Form
  | [] => []
  | f :: rest =>
    match fetchLeadsForForm f.formId f.formName f.pageId f.pageName now
        (upstream f.formId) with
    | .error _ => []
    | .ok _ => f :: processedForms upstream now rest

/-- The whole database the sync core reads and writes. -/
structure DB where
  users : List User
  forms : List Form
  leads : LeadStore
deriving DecidableEq, Repr

/-- `fetchFacebookLeads`: validate the credential, resolve the target forms,
then run the per-form loop.  Returns the gathered leads (or the thrown
error) together with the forms store, which keeps the `lastFetchedAt`
updates persisted before any failure. -/
def fetchFacebookLeads (db : DB) (upstream : String → UpstreamPages)
    (userId : String) (formId appId : Option String) (since : Option Time)
    (now : Time) : Except String (List ProcessedLead) × List Form :=
  match validateUserConfig db.users userId appId with
  | .error e => (.error e, db.forms)
  | .ok _ =>
    match resolveForms db.forms userId formId appId with
    | .error e => (.error e, db.forms)
    | .ok targetForms => syncFormsLoop upstream userId since now targetForms db.forms

/-! ### Lead upsert and the controller
(`facebookLeadController.syncFacebookLeads`) -/

/-- The `$set` applied by
`Lead.findOneAndUpdate({leadId}, {...lead, lastSyncedAt: now})` to an
existing document: every field of the normalized lead plus `lastSyncedAt`;
`status` and `notes` are not in the update document and are preserved. -/
def applyLeadUpdate (p : ProcessedLead) (now : Time) (old : Lead) : Lead :=
  { old with
    userId := p.userId
    formId := p.formId
    formName := p.formName
    pageId := p.pageId
    pageName := p.pageName
    leadId := p.leadId
    fullName := p.fullName
    email := p.email
    phone := p.phone
    createdTime := p.createdTime
    fieldData := p.fieldData
    rawData := p.rawData
    lastSyncedAt := now }

/-- The document inserted when no lead with this `leadId` exists
(`upsert: true, setDefaultsOnInsert: true`): schema defaults give
`status = new` and `notes = null`. -/
def freshLead (p : ProcessedLead) (now : Time) : Lead :=
  { userId := p.userId
    formId := p.formId
    formName := p.formName
    pageId := p.pageId
    pageName := p.pageName
    leadId := p.leadId
    fullName := p.fullName
    email := p.email
    phone := p.phone
    createdTime := p.createdTime
    fieldData := p.fieldData
    rawData := p.rawData
    status := .new
    notes := none
    lastSyncedAt := now }

/-- `Lead.findOneAndUpdate({leadId: lead.leadId}, {...lead, lastSyncedAt},
{upsert: true})`: the match condition is `leadId` alone. -/
def upsertLead (store : LeadStore) (p : ProcessedLead) (now : Time) : LeadStore :=
  if store.any (fun l => l.leadId == p.leadId) then
    updateFirst (fun l => l.leadId == p.leadId) (applyLeadUpdate p now) store
  else
    store ++ [freshLead p now]

/-- The controller's per-lead loop: upsert each lead and count it toward
`inserted` (the model's store upsert cannot fail, so `errors` stays empty as
in a run without storage failures). -/
def processLeads (now : Time) : LeadStore → List ProcessedLead → LeadStore × Nat
  | store, [] => (store, 0)
  | store, p :: rest =>
    let store' := upsertLead store p now
    let (store'', n) := processLeads now store' rest
    (store'', n + 1)

/-- The watermark query predicate `{userId, [formId]}`. -/
def leadMatches (userId : String) (formId : Option String) (l : Lead) : Bool :=
  l.userId == userId &&
  (match formId with
   | some fid => l.formId == fid
   | none => true)

/-- `Lead.findOne(query).sort({createdTime: -1})`: a stored lead matching
the query with maximal `createdTime`, if any. -/
def lastSyncedLead (store : LeadStore) (userId : String) (formId : Option String) :
    Option Lead :=
  (store.filter (leadMatches userId formId)).argmax (·.createdTime)

/-- The `since` bound passed to the upstream fetch: the watermark lead's
`createdTime`, absent when no lead matches. -/
def computeSince (store : LeadStore) (userId : String) (formId : Option String) :
    Option Time :=
  (lastSyncedLead store userId formId).map (·.createdTime)

structure SyncResults where
  totalFetched : Nat
  inserted : Nat
  errors : List (String × String)
deriving DecidableEq, Repr

/-- `facebookLeadController.syncFacebookLeads`: compute the watermark, fetch
(through the service) with `since` set to it, then upsert every returned
lead, counting each toward `inserted`.  A service failure is rethrown with
the `Lead sync failed:` prefix; store mutations already persisted remain. -/
def syncFacebookLeads (db : DB) (upstream : String → UpstreamPages)
    (userId : String) (formId appId : Option String) (now : Time) :
    Except String SyncResults × DB :=
  if userId = "" then (.error "Lead sync failed: User ID is required for syncing leads", db)
  else
    let since := computeSince db.leads userId formId
    match fetchFacebookLeads db upstream userId formId appId since now with
    | (.error e, forms') => (.error ("Lead sync failed: " ++ e), { db with forms := forms' })
    | (.ok leads, forms') =>
      let (leadStore', inserted) := processLeads now db.leads leads
      (.ok { totalFetched := leads.length, inserted := inserted, errors := [] },
       { db with forms := forms', leads := leadStore' })

/-- `updateLeadStatus` (controller): set `status`/`notes` on the user's lead
matched by its upstream lead id. -/
def updateLeadStatus (store : LeadStore) (userId leadId : String)
    (status : LeadStatus) (notes : Option String) : LeadStore :=
  updateFirst (fun l => l.userId == userId && l.leadId == leadId)
    (fun l => { l with status := status, notes := notes }) store

/-! ### Insights cache (`analyticsService`) -/

/-- A stored `Analytics` cache document.  The payload is abstracted to a
natural number. -/
structure AnalyticsEntry where
  userId : String
  adAccountId : String
  datePreset : String
  breakdown : Option String
  data : Nat
  fetchedAt : Time
  expiresAt : Time
deriving DecidableEq, Repr

abbrev AnalyticsStore := List AnalyticsEntry

/-- The cache lookup key `{userId, adAccountId, datePreset, breakdown}`. -/
def cacheKeyMatch (userId adAccountId datePreset : String)
    (breakdown : Option String) (e : AnalyticsEntry) : Bool :=
  e.userId == userId && e.adAccountId == adAccountId &&
  e.datePreset == datePreset && e.breakdown == breakdown

def findCache (store : AnalyticsStore) (userId adAccountId datePreset : String)
    (breakdown : Option String) : Option AnalyticsEntry :=
  store.find? (cacheKeyMatch userId adAccountId datePreset breakdown)

/-- Six hours in milliseconds (`expiresAt.setHours(expiresAt.getHours() + 6)`). -/
def sixHoursMs : Nat := 6 * 60 * 60 * 1000

/-- `analyticsService.cacheInsights`: update the keyed entry in place, or
create a new one; either way `expiresAt = now + 6h`. -/
def cacheInsights (store : AnalyticsStore) (userId adAccountId datePreset : String)
    (breakdown : Option String) (data : Nat) (now : Time) : AnalyticsStore :=
  let expiresAt := now + sixHoursMs
  if store.any (cacheKeyMatch userId adAccountId datePreset breakdown) then
    updateFirst (cacheKeyMatch userId adAccountId datePreset breakdown)
      (fun e => { e with data := data, fetchedAt := now, expiresAt := expiresAt })
      store
  else
    store ++ [{ userId := userId, adAccountId := adAccountId,
                datePreset := datePreset, breakdown := breakdown,
                data := data, fetchedAt := now, expiresAt := expiresAt }]

/-- Result of `getInsights`: the returned payload, the cache store
afterwards, and whether the upstream insights endpoint was called. -/
structure InsightsOutcome where
  data : Nat
  cache : AnalyticsStore
  upstreamCalled : Bool
deriving DecidableEq, Repr

/-- The miss/expired/forced branch of `getInsights`: call upstream, cache on
success, propagate the upstream error otherwise. -/
def getInsightsFetch (store : AnalyticsStore)
    (userId adAccountId datePreset : String) (breakdown : Option String)
    (upstream : Except String Nat) (now : Time) : Except String InsightsOutcome :=
  match upstream with
  | .error e => .error ("Facebook API Error: " ++ e)
  | .ok d =>
    .ok { data := d
          cache := cacheInsights store userId adAccountId datePreset breakdown d now
          upstreamCalled := true }

/-- `analyticsService.getInsights`: unless `forceRefresh`, a keyed cache
entry with `expiresAt > now` is returned without touching upstream;
otherwise the fresh payload is fetched and cached. -/
def getInsights (store : AnalyticsStore) (userId adAccountId datePreset : String)
    (breakdown : Option String) (forceRefresh : Bool)
    (upstream : Except String Nat) (now : Time) : Except String InsightsOutcome :=
  match (if forceRefresh then none
         else findCache store userId adAccountId datePreset breakdown) with
  | some e =>
    if now < e.expiresAt then
      .ok { data := e.data, cache := store, upstreamCalled := false }
    else
      getInsightsFetch store userId adAccountId datePreset breakdown upstream now
  | none => getInsightsFetch store userId adAccountId datePreset breakdown upstream now

/-! ### Token persistence (`facebookTokenService.saveUserToken` and the
`User` model's `facebookApps` pre-save hook) -/

/-- The blank test the hook applies:
`!app.appName || app.appName.trim() === ''`. -/
def appNameBlank (n : Option String) : Bool :=
  match n with
  | none => true
  | some s => s == "" || jsTrim s == ""

/-- The generated default name `Facebook App (<timestamp>)`. -/
def genAppName (ts : String) : String := "Facebook App (" ++ ts ++ ")"

/-- The `userSchema.pre('save')` hook on a modified `facebookApps` array:
fill in a generated `appName` when blank, and default `tokenType` and
`createdAt`. -/
def normalizeApps (ts : String) (now : Time) (apps : List FBApp) : List FBApp :=
  apps.map (fun app =>
    let app :=
      if appNameBlank app.appName then { app with appName := some (genAppName ts) }
      else app
    let app := if app.tokenType = "" then { app with tokenType := "short_lived" } else app
    let app := if app.createdAt = none then { app with createdAt := some now } else app
    app)

/-- The argument record of `saveUserToken`. -/
structure TokenData where
  accessToken : String
  appId : Option String
  appName : Option String
  tokenType : Option String
  expiresAt : Option Time
deriving DecidableEq, Repr

/-- The app name `saveUserToken` settles on: the trimmed supplied name when
it is truthy and trims to something non-empty, else
`Facebook App (<timestamp>)`. -/
def chooseAppName (td : TokenData) (ts : String) : String :=
  match td.appName with
  | some s => if jsTrim s ≠ "" then jsTrim s else genAppName ts
  | none => genAppName ts

/-- `findIndex(app => tokenData.appId && app.appId === tokenData.appId)`. -/
def matchesTokenAppId (td : TokenData) (app : FBApp) : Bool :=
  match td.appId with
  | some aid => aid != "" && app.appId == some aid
  | none => false

/-- `facebookTokenService.saveUserToken` followed by `user.save()` (which
runs the pre-save hook, since `facebookApps` was modified): sets the legacy
token, updates the matching credential in place or appends a new one, and
normalizes the array.  `genMongoId`/`genId` model the fresh subdocument id
and the generated `app_<ts>_<rand>` app id; `ts` models the timestamp
strings. -/
def saveUserToken (user : User) (td : TokenData) (genMongoId genId ts : String)
    (now : Time) : User :=
  let appName := chooseAppName td ts
  let apps :=
    if user.facebookApps.any (matchesTokenAppId td) then
      updateFirst (matchesTokenAppId td)
        (fun app =>
          { app with
            accessToken := td.accessToken
            tokenType := jsOrStr td.tokenType "short_lived"
            expiresAt := td.expiresAt
            appName := some appName })
        user.facebookApps
    else
      user.facebookApps ++
        [{ mongoId := genMongoId
           appId := some (jsOrStr td.appId genId)
           appName := some appName
           accessToken := td.accessToken
           tokenType := jsOrStr td.tokenType "short_lived"
           expiresAt := td.expiresAt
           createdAt := some now }]
  { user with
    accessToken := some td.accessToken
    facebookApps := normalizeApps ts now apps }

/-! ### Helper lemmas -/

theorem length_updateFirst (p : α → Bool) (f : α → α) (l : List α) :
    (updateFirst p f l).length = l.length := by
  induction l with
  | nil => rfl
  | cons x xs ih =>
    simp only [updateFirst]
    split
    · simp
    · simp [ih]

theorem find?_updateFirst (p : α → Bool) (f : α → α) (l : List α)
    (hf : ∀ x, p x = true → p (f x) = true) :
    (updateFirst p f l).find? p = (l.find? p).map f := by
  induction l with
  | nil => rfl
  | cons x xs ih =>
    by_cases h : p x
    · rw [updateFirst, if_pos h, List.find?_cons_of_pos _ (hf x h),
        List.find?_cons_of_pos _ h, Option.map_some']
    · rw [updateFirst, if_neg h, List.find?_cons_of_neg _ h,
        List.find?_cons_of_neg _ h, ih]

theorem filter_length_updateFirst (q r : α → Bool) (f : α → α) (l : List α)
    (h : ∀ x, q x = true → r (f x) = r x) :
    ((updateFirst q f l).filter r).length = (l.filter r).length := by
  induction l with
  | nil => rfl
  | cons x xs ih =>
    by_cases hq : q x
    · simp only [updateFirst, if_pos hq, List.filter_cons, h x hq]
      split <;> simp
    · simp only [updateFirst, if_neg hq, List.filter_cons]
      split <;> simp [ih]

theorem dropWhile_head_false (p : α → Bool) (l : List α) :
    ∀ (a : α) (rest : List α), l.dropWhile p = a :: rest → p a = false := by
  induction l with
  | nil => intro a rest h; simp [List.dropWhile] at h
  | cons x xs ih =>
    intro a rest h
    by_cases hx : p x
    · rw [List.dropWhile_cons, if_pos hx] at h
      exact ih a rest h
    · rw [List.dropWhile_cons, if_neg hx] at h
      injection h with h1 _
      subst h1
      exact Bool.eq_false_iff.mpr hx

theorem dropWhile_append_last (p : α → Bool) (b : α) (hb : p b = false)
    (xs : List α) : ∃ t, (xs ++ [b]).dropWhile p = t ++ [b] := by
  induction xs with
  | nil => exact ⟨[], by simp [List.dropWhile_cons, hb]⟩
  | cons x xs ih =>
    by_cases hx : p x
    · obtain ⟨t, ht⟩ := ih
      exact ⟨t, by simp [List.dropWhile_cons, hx, ht]⟩
    · exact ⟨x :: xs, by simp [List.dropWhile_cons, hx]⟩

theorem string_ne_empty_of_data (s : String) (c : Char) (l : List Char)
    (hd : s.data = c :: l) : s ≠ "" := by
  intro h
  rw [h] at hd
  exact List.cons_ne_nil c l hd.symm

theorem jsTrim_ne_empty (s : String) (c : Char) (l : List Char)
    (hd : s.data = c :: l) (hc : jsIsWs c = false) : jsTrim s ≠ "" := by
  unfold jsTrim
  rw [hd, List.dropWhile_cons, if_neg (by simp [hc]), List.reverse_cons]
  obtain ⟨t, ht⟩ := dropWhile_append_last jsIsWs c hc l.reverse
  rw [ht]
  intro hcontra
  have hdata : ((t ++ [c]).reverse : List Char) = [] := congrArg String.data hcontra
  simp [List.reverse_append] at hdata

theorem genAppName_data (ts : String) :
    (genAppName ts).data = 'F' :: ("acebook App (".data ++ (ts.data ++ [')'])) := by
  have h1 : (genAppName ts).data = "Facebook App (".data ++ (ts.data ++ ")".data) := by
    simp [genAppName, String.data_append]
  rw [h1]
  rfl

theorem genAppName_not_blank (ts : String) :
    appNameBlank (some (genAppName ts)) = false := by
  have hne : genAppName ts ≠ "" :=
    string_ne_empty_of_data _ _ _ (genAppName_data ts)
  have htrim : jsTrim (genAppName ts) ≠ "" :=
    jsTrim_ne_empty _ _ _ (genAppName_data ts) (by decide)
  simp [appNameBlank, hne, htrim]

theorem jsTrim_length_pos (s : String) (h : jsTrim s ≠ "") :
    0 < (jsTrim s).length := by
  rcases hd : (jsTrim s).data with _ | ⟨c, l⟩
  · exact absurd (String.ext hd) h
  · have : (jsTrim s).length = (jsTrim s).data.length := rfl
    rw [this, hd]
    simp

theorem countLeadId_cons (x : Lead) (xs : LeadStore) (lid : String) :
    countLeadId (x :: xs) lid =
      if x.leadId == lid then countLeadId xs lid + 1 else countLeadId xs lid := by
  simp only [countLeadId, List.filter_cons]
  split <;> simp

theorem upsertLead_cons_ne (x : Lead) (xs : LeadStore) (p : ProcessedLead) (t : Time)
    (h : (x.leadId == p.leadId) = false) :
    upsertLead (x :: xs) p t = x :: upsertLead xs p t := by
  by_cases hany : xs.any (fun l => l.leadId == p.leadId)
  · simp [upsertLead, updateFirst, List.any_cons, h, hany]
  · simp [upsertLead, updateFirst, List.any_cons, h, hany]

/-- What one `findOneAndUpdate({leadId}, {...lead, lastSyncedAt}, {upsert})`
does to a store holding at most one document with that lead id: afterwards
exactly one document carries the id; its synced fields come from the update
document, while `status`/`notes` are the schema defaults on a fresh insert
and are preserved from the existing document on an update. -/
theorem upsertLead_spec (s : LeadStore) (p : ProcessedLead) (t : Time)
    (h : countLeadId s p.leadId ≤ 1) :
    countLeadId (upsertLead s p t) p.leadId = 1 ∧
    ∃ l, findByLeadId (upsertLead s p t) p.leadId = some l ∧
      l.userId = p.userId ∧ l.formId = p.formId ∧ l.fullName = p.fullName ∧
      l.email = p.email ∧ l.phone = p.phone ∧ l.createdTime = p.createdTime ∧
      l.leadId = p.leadId ∧ l.lastSyncedAt = t ∧
      ((findByLeadId s p.leadId = none ∧ l.status = .new ∧ l.notes = none) ∨
       (∃ l₀, findByLeadId s p.leadId = some l₀ ∧ l.status = l₀.status ∧ l.notes = l₀.notes)) := by
  induction s with
  | nil =>
    refine ⟨by simp [upsertLead, countLeadId, freshLead], freshLead p t, ?_,
      rfl, rfl, rfl, rfl, rfl, rfl, rfl, rfl, Or.inl ⟨rfl, rfl, rfl⟩⟩
    simp [upsertLead, findByLeadId, freshLead]
  | cons x xs ih =>
    by_cases hx : (x.leadId == p.leadId) = true
    · have hup : upsertLead (x :: xs) p t = applyLeadUpdate p t x :: xs := by
        simp [upsertLead, updateFirst, List.any_cons, hx]
      have hcount0 : countLeadId xs p.leadId = 0 := by
        rw [countLeadId_cons, if_pos hx] at h
        omega
      constructor
      · rw [hup, countLeadId_cons]
        simp [applyLeadUpdate, hcount0]
      · refine ⟨applyLeadUpdate p t x, ?_, rfl, rfl, rfl, rfl, rfl, rfl, rfl, rfl,
          Or.inr ⟨x, ?_, rfl, rfl⟩⟩
        · rw [hup]
          exact List.find?_cons_of_pos _ (by simp [applyLeadUpdate])
        · exact List.find?_cons_of_pos _ hx
    · have hx' : (x.leadId == p.leadId) = false := by
        simpa using hx
      have hcount : countLeadId (x :: xs) p.leadId = countLeadId xs p.leadId := by
        rw [countLeadId_cons, if_neg (by simp [hx'])]
      have h' : countLeadId xs p.leadId ≤ 1 := by omega
      obtain ⟨ihc, l, ihf, hrest⟩ := ih h'
      rw [upsertLead_cons_ne x xs p t hx']
      constructor
      · rw [countLeadId_cons, if_neg (by simp [hx'])]
        exact ihc
      · refine ⟨l, ?_, hrest.1, hrest.2.1, hrest.2.2.1, hrest.2.2.2.1,
          hrest.2.2.2.2.1, hrest.2.2.2.2.2.1, hrest.2.2.2.2.2.2.1,
          hrest.2.2.2.2.2.2.2.1, ?_⟩
        · simp only [findByLeadId] at ihf ⊢
          rw [List.find?_cons_of_neg _ (by simp [hx'])]
          exact ihf
        · have hfind : findByLeadId (x :: xs) p.leadId = findByLeadId xs p.leadId := by
            simp only [findByLeadId]
            rw [List.find?_cons_of_neg _ (by simp [hx'])]
          rw [hfind]
          exact hrest.2.2.2.2.2.2.2.2

/-- `updateLeadStatus` on a store whose matched lead belongs to the caller:
the document's `status`/`notes` are replaced; nothing else (and no other
document) changes, and the number of documents with the id is unchanged. -/
theorem updateLeadStatus_spec (s : LeadStore) (uid lid : String) (st : LeadStatus)
    (nt : Option String) (l0 : Lead)
    (hf : findByLeadId s lid = some l0) (huid : l0.userId = uid) :
    findByLeadId (updateLeadStatus s uid lid st nt) lid =
      some { l0 with status := st, notes := nt } ∧
    countLeadId (updateLeadStatus s uid lid st nt) lid = countLeadId s lid := by
  induction s with
  | nil => simp [findByLeadId] at hf
  | cons x xs ih =>
    by_cases hx : (x.leadId == lid) = true
    · have hx0 : x = l0 := by
        have h2 := hf
        simp only [findByLeadId, List.find?_cons, hx, Option.some.injEq] at h2
        exact h2
      subst hx0
      have hq : (x.userId == uid && x.leadId == lid) = true := by
        simp [huid, hx]
      have hupd : updateLeadStatus (x :: xs) uid lid st nt =
          { x with status := st, notes := nt } :: xs := by
        simp [updateLeadStatus, updateFirst, hq]
      constructor
      · rw [hupd]
        simp only [findByLeadId, List.find?_cons, hx]
      · rw [hupd, countLeadId_cons, countLeadId_cons]
    · have hx' : (x.leadId == lid) = false := by simpa using hx
      have hf' : findByLeadId xs lid = some l0 := by
        have h2 := hf
        simp only [findByLeadId, List.find?_cons, hx'] at h2
        exact h2
      have hq : (x.userId == uid && x.leadId == lid) = false := by
        simp [hx']
      have hupd : updateLeadStatus (x :: xs) uid lid st nt =
          x :: updateLeadStatus xs uid lid st nt := by
        simp [updateLeadStatus, updateFirst, hq]
      obtain ⟨ihf, ihc⟩ := ih hf'
      constructor
      · rw [hupd]
        simp only [findByLeadId, List.find?_cons, hx']
        exact ihf
      · rw [hupd, countLeadId_cons, countLeadId_cons, if_neg (by simp [hx']),
          if_neg (by simp [hx'])]
        exact ihc

/-- Every form in the store after a run of the per-form loop — successful
or aborted by an upstream failure — either has `lastFetchedAt = now` or was
untouched because no form processed in the run shares its document id. -/
theorem syncFormsLoop_lastFetchedAt (upstream : String → UpstreamPages)
    (userId : String) (since : Option Time) (now : Time) :
    ∀ (todo store : List Form) (res : Except String (List ProcessedLead))
      (store' : List Form),
      syncFormsLoop upstream userId since now todo store = (res, store') →
      ∀ f' ∈ store', f'.lastFetchedAt = some now ∨
        (f' ∈ store ∧
         ∀ tf ∈ processedForms upstream now todo, (tf.mongoId == f'.mongoId) = false) := by
  intro todo
  induction todo with
  | nil =>
    intro store res store' hok f' hf'
    simp only [syncFormsLoop] at hok
    injection hok with h1 h2
    subst h2
    exact Or.inr ⟨hf', by simp [processedForms]⟩
  | cons form rest ih =>
    intro store res store' hok f' hf'
    simp only [syncFormsLoop] at hok
    rcases hfetch : fetchLeadsForForm form.formId form.formName form.pageId
        form.pageName now (upstream form.formId) with e | formLeads
    · rw [hfetch] at hok
      injection hok with h1 h2
      subst h2
      refine Or.inr ⟨hf', ?_⟩
      simp [processedForms, hfetch]
    · rw [hfetch] at hok
      rcases hrec : syncFormsLoop upstream userId since now rest
          (store.map (fun f =>
            if f.mongoId == form.mongoId then { f with lastFetchedAt := some now } else f))
        with ⟨res', st'⟩
      rw [hrec] at hok
      have hst : store' = st' := by
        rcases res' with e | ls <;> (injection hok with h1 h2; exact h2.symm)
      subst hst
      rcases ih _ res' store' hrec f' hf' with hnow | ⟨hmem, hnone⟩
      · exact Or.inl hnow
      · obtain ⟨g0, hg0, hmap⟩ := List.mem_map.mp hmem
        by_cases hg : (g0.mongoId == form.mongoId) = true
        · rw [if_pos hg] at hmap
          exact Or.inl (by rw [← hmap])
        · have hg' : (g0.mongoId == form.mongoId) = false := by simpa using hg
          rw [if_neg (by simp [hg'])] at hmap
          subst hmap
          refine Or.inr ⟨hg0, ?_⟩
          intro tf htf
          have hproc : processedForms upstream now (form :: rest) =
              form :: processedForms upstream now rest := by
            simp [processedForms, hfetch]
          rw [hproc] at htf
          rcases List.mem_cons.mp htf with rfl | htf'
          · simp only [beq_eq_false_iff_ne] at hg' ⊢
            exact fun hcontra => hg' hcontra.symm
          · exact hnone tf htf'

/-- The `facebookApps` pre-save hook leaves every credential with a
non-blank `appName`. -/
theorem normalizeApps_not_blank (ts : String) (now : Time) (apps : List FBApp) :
    ∀ app ∈ normalizeApps ts now apps, appNameBlank app.appName = false := by
  intro app happ
  obtain ⟨a0, -, heq⟩ := List.mem_map.mp happ
  subst heq
  by_cases hb : appNameBlank a0.appName = true
  · simp only [hb, if_pos]
    split <;> split <;> exact genAppName_not_blank ts
  · simp only [if_neg hb]
    split <;> split <;> exact Bool.eq_false_iff.mpr hb

/-- A cache upsert leaves the keyed entry with the fresh payload and
`expiresAt = now + 6h`. -/
theorem findCache_cacheInsights (store : AnalyticsStore)
    (uid acct preset : String) (bd : Option String) (d : Nat) (now : Time) :
    ∀ e', findCache (cacheInsights store uid acct preset bd d now) uid acct preset bd = some e' →
      e'.expiresAt = now + sixHoursMs ∧ e'.data = d := by
  intro e' he'
  by_cases hany : store.any (cacheKeyMatch uid acct preset bd) = true
  · simp only [cacheInsights] at he'
    rw [if_pos hany] at he'
    have hpres : ∀ x, cacheKeyMatch uid acct preset bd x = true →
        cacheKeyMatch uid acct preset bd
          { x with data := d, fetchedAt := now, expiresAt := now + sixHoursMs } = true :=
      fun x hx => hx
    simp only [findCache] at he'
    rw [find?_updateFirst (cacheKeyMatch uid acct preset bd) _ store hpres] at he'
    rcases hfind : store.find? (cacheKeyMatch uid acct preset bd) with - | e0
    · rw [hfind] at he'
      simp at he'
    · rw [hfind] at he'
      simp only [Option.map_some', Option.some.injEq] at he'
      subst he'
      exact ⟨rfl, rfl⟩
  · simp only [cacheInsights] at he'
    rw [if_neg hany] at he'
    have hnone : store.find? (cacheKeyMatch uid acct preset bd) = none := by
      rw [List.find?_eq_none]
      intro x hx hpx
      exact hany (List.any_eq_true.mpr ⟨x, hx, hpx⟩)
    simp only [findCache, List.find?_append, hnone, Option.none_or] at he'
    have hk : cacheKeyMatch uid acct preset bd
        { userId := uid, adAccountId := acct, datePreset := preset, breakdown := bd,
          data := d, fetchedAt := now, expiresAt := now + sixHoursMs } = true := by
      simp [cacheKeyMatch]
    rw [List.find?_cons_of_pos _ hk] at he'
    simp only [Option.some.injEq] at he'
    subst he'
    exact ⟨rfl, rfl⟩

/-! ### Claim theorems -/

/-- **C4**: with `forceRefresh = false`, a keyed cache entry with
`expiresAt` strictly after `now` is served as-is with no upstream call;
a missing or expired entry forces an upstream call whose success upserts
the entry with `expiresAt = now + 6h`; and a response served without an
upstream call always comes from an unexpired entry. -/
theorem getInsights_cache_correct :
    (∀ (store : AnalyticsStore) (uid acct preset : String) (bd : Option String)
        (upstream : Except String Nat) (now : Time) (e : AnalyticsEntry),
      findCache store uid acct preset bd = some e → now < e.expiresAt →
      getInsights store uid acct preset bd false upstream now =
        .ok { data := e.data, cache := store, upstreamCalled := false }) ∧
    (∀ (store : AnalyticsStore) (uid acct preset : String) (bd : Option String)
        (now : Time) (d : Nat),
      findCache store uid acct preset bd = none →
      getInsights store uid acct preset bd false (.ok d) now =
        .ok { data := d, cache := cacheInsights store uid acct preset bd d now,
              upstreamCalled := true }) ∧
    (∀ (store : AnalyticsStore) (uid acct preset : String) (bd : Option String)
        (now : Time) (d : Nat) (e : AnalyticsEntry),
      findCache store uid acct preset bd = some e → ¬ now < e.expiresAt →
      getInsights store uid acct preset bd false (.ok d) now =
        .ok { data := d, cache := cacheInsights store uid acct preset bd d now,
              upstreamCalled := true }) ∧
    (∀ (store : AnalyticsStore) (uid acct preset : String) (bd : Option String)
        (d : Nat) (now : Time) (e' : AnalyticsEntry),
      findCache (cacheInsights store uid acct preset bd d now) uid acct preset bd = some e' →
      e'.expiresAt = now + sixHoursMs ∧ e'.data = d) ∧
    (∀ (store : AnalyticsStore) (uid acct preset : String) (bd : Option String)
        (upstream : Except String Nat) (now : Time) (o : InsightsOutcome),
      getInsights store uid acct preset bd false upstream now = .ok o →
      o.upstreamCalled = false →
      ∃ e, findCache store uid acct preset bd = some e ∧ now < e.expiresAt ∧
        o.data = e.data ∧ o.cache = store) := by
  refine ⟨?_, ?_, ?_, ?_, ?_⟩
  · intro store uid acct preset bd upstream now e hfind hfresh
    simp [getInsights, hfind, hfresh]
  · intro store uid acct preset bd now d hfind
    simp [getInsights, hfind, getInsightsFetch]
  · intro store uid acct preset bd now d e hfind hstale
    simp [getInsights, hfind, hstale, getInsightsFetch]
  · intro store uid acct preset bd d now e' he'
    exact findCache_cacheInsights store uid acct preset bd d now e' he'
  · intro store uid acct preset bd upstream now o hok hcall
    rcases hfind : findCache store uid acct preset bd with - | e
    · have heq : getInsights store uid acct preset bd false upstream now =
          getInsightsFetch store uid acct preset bd upstream now := by
        simp [getInsights, hfind]
      rw [heq] at hok
      rcases upstream with err | d
      · simp [getInsightsFetch] at hok
      · simp only [getInsightsFetch, Except.ok.injEq] at hok
        rw [← hok] at hcall
        simp at hcall
    · have heq : getInsights store uid acct preset bd false upstream now =
          if now < e.expiresAt then
            .ok { data := e.data, cache := store, upstreamCalled := false }
          else getInsightsFetch store uid acct preset bd upstream now := by
        simp [getInsights, hfind]
      rw [heq] at hok
      by_cases hfresh : now < e.expiresAt
      · rw [if_pos hfresh] at hok
        simp only [Except.ok.injEq] at hok
        rw [← hok] at hcall ⊢
        exact ⟨e, rfl, hfresh, rfl, rfl⟩
      · rw [if_neg hfresh] at hok
        rcases upstream with err | d
        · simp [getInsightsFetch] at hok
        · simp only [getInsightsFetch, Except.ok.injEq] at hok
          rw [← hok] at hcall
          simp at hcall

/-- Closed instance of C4: a concrete unexpired entry is served without an
upstream call, even though the upstream would fail if consulted. -/
theorem getInsights_cache_correct_witness :
    getInsights
      [{ userId := "u", adAccountId := "act1", datePreset := "last_7d", breakdown := none,
         data := 42, fetchedAt := 0, expiresAt := 100 }]
      "u" "act1" "last_7d" none false (.error "invalid token") 5 =
      .ok { data := 42,
            cache := [{ userId := "u", adAccountId := "act1", datePreset := "last_7d",
                        breakdown := none, data := 42, fetchedAt := 0, expiresAt := 100 }],
            upstreamCalled := false } :=
  getInsights_cache_correct.1
    [{ userId := "u", adAccountId := "act1", datePreset := "last_7d", breakdown := none,
       data := 42, fetchedAt := 0, expiresAt := 100 }]
    "u" "act1" "last_7d" none (.error "invalid token") 5
    { userId := "u", adAccountId := "act1", datePreset := "last_7d", breakdown := none,
      data := 42, fetchedAt := 0, expiresAt := 100 }
    (by decide) (by decide)

/-- **C1**: upserting the same upstream lead id twice — within one
controller loop or across two sync calls with a user `status`/`notes` edit
in between — leaves exactly one stored document with that id, counts both
passes toward `inserted`; the second upsert refreshes `lastSyncedAt` and
preserves the user-set `status`/`notes`. -/
theorem sync_idempotent_upsert (store : LeadStore) (p : ProcessedLead)
    (t t1 t2 : Time) (st : LeadStatus) (nt : Option String)
    (h : countLeadId store p.leadId ≤ 1) :
    (countLeadId (processLeads t store [p, p]).1 p.leadId = 1 ∧
     (processLeads t store [p, p]).2 = 2) ∧
    (countLeadId
        (upsertLead (updateLeadStatus (upsertLead store p t1) p.userId p.leadId st nt) p t2)
        p.leadId = 1 ∧
     ∃ l, findByLeadId
        (upsertLead (updateLeadStatus (upsertLead store p t1) p.userId p.leadId st nt) p t2)
        p.leadId = some l ∧
       l.status = st ∧ l.notes = nt ∧ l.lastSyncedAt = t2) := by
  constructor
  · obtain ⟨hc1, -⟩ := upsertLead_spec store p t h
    obtain ⟨hc2, -⟩ := upsertLead_spec (upsertLead store p t) p t (le_of_eq hc1)
    exact ⟨hc2, rfl⟩
  · obtain ⟨hc1, l1, hf1, hu1, -⟩ := upsertLead_spec store p t1 h
    obtain ⟨hfU, hcU⟩ :=
      updateLeadStatus_spec (upsertLead store p t1) p.userId p.leadId st nt l1 hf1 hu1
    have h2 : countLeadId
        (updateLeadStatus (upsertLead store p t1) p.userId p.leadId st nt) p.leadId ≤ 1 := by
      rw [hcU, hc1]
    obtain ⟨hc3, l3, hf3, -, -, -, -, -, -, -, hlast3, hdisj⟩ :=
      upsertLead_spec (updateLeadStatus (upsertLead store p t1) p.userId p.leadId st nt) p t2 h2
    rcases hdisj with ⟨hnone, -, -⟩ | ⟨l₀, hfind₀, hst, hnt⟩
    · rw [hfU] at hnone
      simp at hnone
    · rw [hfU] at hfind₀
      injection hfind₀ with he
      subst he
      exact ⟨hc3, l3, hf3, hst, hnt, hlast3⟩

/-- A stored lead used as a concrete fixture. -/
def lead0 : Lead :=
  { userId := "A", formId := "F-A", formName := none, pageId := none, pageName := none,
    leadId := "L1", fullName := some "Alice", email := none, phone := none,
    createdTime := 3, fieldData := [],
    rawData := { platform := "unknown", campaignName := "unknown", adsetName := "unknown",
                 adName := "unknown", adId := "unknown" },
    status := .new, notes := none, lastSyncedAt := 0 }

/-- A processed lead used as a concrete fixture (same upstream id as
`lead0`, different user). -/
def leadB : ProcessedLead :=
  { leadId := "L1", formId := "F-B", formName := none, pageId := none, pageName := none,
    createdTime := 7, fullName := some "Bob", email := some "bob@x.io", phone := none,
    fieldData := [],
    rawData := { platform := "unknown", campaignName := "unknown", adsetName := "unknown",
                 adName := "unknown", adId := "unknown" },
    userId := "B" }

/-- Closed instance of C1 on an initially empty store. -/
theorem sync_idempotent_upsert_witness :
    (countLeadId (processLeads 7 [] [leadB, leadB]).1 leadB.leadId = 1 ∧
     (processLeads 7 [] [leadB, leadB]).2 = 2) ∧
    (countLeadId
        (upsertLead (updateLeadStatus (upsertLead [] leadB 1) leadB.userId leadB.leadId
          .contacted (some "called")) leadB 2) leadB.leadId = 1 ∧
     ∃ l, findByLeadId
        (upsertLead (updateLeadStatus (upsertLead [] leadB 1) leadB.userId leadB.leadId
          .contacted (some "called")) leadB 2) leadB.leadId = some l ∧
       l.status = .contacted ∧ l.notes = some "called" ∧ l.lastSyncedAt = 2) :=
  sync_idempotent_upsert [] leadB 7 1 2 .contacted (some "called") (by decide)

/-- **C9**: a raw lead without an upstream id normalizes to the constant
`leadId = "unknown"`, and since the store upsert is keyed by `leadId`
alone, id-less leads from different users/forms collapse into one stored
record that each new one overwrites. -/
theorem idless_leads_collapse (raw1 raw2 : RawLead) (f1 f2 : String)
    (fn1 pg1 pn1 fn2 pg2 pn2 : Option String) (n1 n2 : Time)
    (u1 u2 : String) (t1 t2 : Time) (store : LeadStore)
    (h1 : raw1.id = none) (h2 : raw2.id = none)
    (hs : countLeadId store "unknown" ≤ 1) :
    (normalizeLeadObj raw1 f1 fn1 pg1 pn1 n1).leadId = "unknown" ∧
    (normalizeLeadObj raw2 f2 fn2 pg2 pn2 n2).leadId = "unknown" ∧
    countLeadId
      (upsertLead
        (upsertLead store { normalizeLeadObj raw1 f1 fn1 pg1 pn1 n1 with userId := u1 } t1)
        { normalizeLeadObj raw2 f2 fn2 pg2 pn2 n2 with userId := u2 } t2)
      "unknown" = 1 ∧
    ∃ l, findByLeadId
        (upsertLead
          (upsertLead store { normalizeLeadObj raw1 f1 fn1 pg1 pn1 n1 with userId := u1 } t1)
          { normalizeLeadObj raw2 f2 fn2 pg2 pn2 n2 with userId := u2 } t2)
        "unknown" = some l ∧
      l.userId = u2 ∧ l.formId = (normalizeLeadObj raw2 f2 fn2 pg2 pn2 n2).formId ∧
      l.lastSyncedAt = t2 := by
  have hid1 : (normalizeLeadObj raw1 f1 fn1 pg1 pn1 n1).leadId = "unknown" := by
    simp [normalizeLeadObj, h1, jsOrStr]
  have hid2 : (normalizeLeadObj raw2 f2 fn2 pg2 pn2 n2).leadId = "unknown" := by
    simp [normalizeLeadObj, h2, jsOrStr]
  have hp1 : ({ normalizeLeadObj raw1 f1 fn1 pg1 pn1 n1 with userId := u1 } :
      ProcessedLead).leadId = "unknown" := hid1
  have hp2 : ({ normalizeLeadObj raw2 f2 fn2 pg2 pn2 n2 with userId := u2 } :
      ProcessedLead).leadId = "unknown" := hid2
  obtain ⟨hc1, -⟩ := upsertLead_spec store
    { normalizeLeadObj raw1 f1 fn1 pg1 pn1 n1 with userId := u1 } t1 (by rw [hp1]; exact hs)
  obtain ⟨hc2, l, hf2, hu2, hform2, -, -, -, -, -, hlast2, -⟩ := upsertLead_spec
    (upsertLead store { normalizeLeadObj raw1 f1 fn1 pg1 pn1 n1 with userId := u1 } t1)
    { normalizeLeadObj raw2 f2 fn2 pg2 pn2 n2 with userId := u2 } t2
    (by rw [hp2, ← hp1]; exact le_of_eq hc1)
  rw [hp2] at hc2 hf2
  exact ⟨hid1, hid2, hc2, l, hf2, hu2, hform2, hlast2⟩

/-- A raw lead with no upstream id, used as a concrete fixture. -/
def rawNoId : RawLead :=
  { id := none, created_time := some 11, field_data := none, form_id := none,
    platform := none, campaign_name := none, adset_name := none, ad_name := none,
    ad_id := none }

/-- Closed instance of C9: two id-less leads from different users collapse
into one `"unknown"` record owned by the second user. -/
theorem idless_leads_collapse_witness :
    (normalizeLeadObj rawNoId "F1" none none none 1).leadId = "unknown" ∧
    (normalizeLeadObj rawNoId "F2" none none none 2).leadId = "unknown" ∧
    countLeadId
      (upsertLead
        (upsertLead [] { normalizeLeadObj rawNoId "F1" none none none 1 with userId := "A" } 3)
        { normalizeLeadObj rawNoId "F2" none none none 2 with userId := "B" } 4)
      "unknown" = 1 ∧
    ∃ l, findByLeadId
        (upsertLead
          (upsertLead [] { normalizeLeadObj rawNoId "F1" none none none 1 with userId := "A" } 3)
          { normalizeLeadObj rawNoId "F2" none none none 2 with userId := "B" } 4)
        "unknown" = some l ∧
      l.userId = "B" ∧ l.formId = (normalizeLeadObj rawNoId "F2" none none none 2).formId ∧
      l.lastSyncedAt = 4 :=
  idless_leads_collapse rawNoId rawNoId "F1" "F2" none none none none none none 1 2
    "A" "B" 3 4 [] rfl rfl (by decide)

/-- **C10**: the sync upsert matches on `leadId` alone (no `userId` in the
condition): a lead id already stored for one user is overwritten in place
when another user syncs it — `userId`, `formId` and the contact fields
become the new values — and the store does not grow. -/
theorem upsert_overwrites_across_users (store : LeadStore) (p : ProcessedLead)
    (t : Time) (l0 : Lead)
    (h : countLeadId store p.leadId ≤ 1)
    (hf : findByLeadId store p.leadId = some l0) :
    (upsertLead store p t).length = store.length ∧
    countLeadId (upsertLead store p t) p.leadId = 1 ∧
    ∃ l, findByLeadId (upsertLead store p t) p.leadId = some l ∧
      l.userId = p.userId ∧ l.formId = p.formId ∧ l.fullName = p.fullName ∧
      l.email = p.email ∧ l.phone = p.phone := by
  have hf' : store.find? (fun l => l.leadId == p.leadId) = some l0 := hf
  have hmem : l0 ∈ store := List.mem_of_find?_eq_some hf'
  have hpl0 := List.find?_some hf'
  have hany : store.any (fun l => l.leadId == p.leadId) = true :=
    List.any_eq_true.mpr ⟨l0, hmem, hpl0⟩
  constructor
  · unfold upsertLead
    rw [if_pos hany]
    exact length_updateFirst _ _ _
  · obtain ⟨hc, l, hfind, hu, hform, hfull, hemail, hphone, -, -, -, -⟩ :=
      upsertLead_spec store p t h
    exact ⟨hc, l, hfind, hu, hform, hfull, hemail, hphone⟩

/-- Closed instance of C10: user B's sync of `"L1"` overwrites user A's
stored record in place. -/
theorem upsert_overwrites_across_users_witness :
    (upsertLead [lead0] leadB 9).length = [lead0].length ∧
    countLeadId (upsertLead [lead0] leadB 9) leadB.leadId = 1 ∧
    ∃ l, findByLeadId (upsertLead [lead0] leadB 9) leadB.leadId = some l ∧
      l.userId = leadB.userId ∧ l.formId = leadB.formId ∧ l.fullName = leadB.fullName ∧
      l.email = leadB.email ∧ l.phone = leadB.phone :=
  upsert_overwrites_across_users [lead0] leadB 9 lead0 (by decide) (by decide)

/-- **C2**: the `since` bound a sync sends upstream is exactly the maximal
`createdTime` among the stored leads matching (userId, [formId]); when
nothing matches, no `since` bound is sent. -/
theorem watermark_correct (store : LeadStore) (userId : String) (formId : Option String) :
    (computeSince store userId formId = none ↔
      store.filter (leadMatches userId formId) = []) ∧
    (∀ l ∈ store, leadMatches userId formId l = true →
      ∃ t, computeSince store userId formId = some t ∧ l.createdTime ≤ t ∧
        ∃ m ∈ store, leadMatches userId formId m = true ∧ m.createdTime = t) ∧
    (∀ fid limit after,
      (buildLeadsParams fid limit (computeSince store userId formId) after).since =
        computeSince store userId formId) := by
  refine ⟨?_, ?_, fun _ _ _ => rfl⟩
  · constructor
    · intro h
      simp only [computeSince, lastSyncedLead, Option.map_eq_none'] at h
      exact List.argmax_eq_none.mp h
    · intro h
      simp [computeSince, lastSyncedLead, h]
  · intro l hl hm
    have hlf : l ∈ store.filter (leadMatches userId formId) := List.mem_filter.mpr ⟨hl, hm⟩
    rcases hargmax : (store.filter (leadMatches userId formId)).argmax (·.createdTime)
      with - | m
    · rw [List.argmax_eq_none] at hargmax
      rw [hargmax] at hlf
      simp at hlf
    · have hmm : m ∈ (store.filter (leadMatches userId formId)).argmax (·.createdTime) :=
        Option.mem_def.mpr hargmax
      have hle : l.createdTime ≤ m.createdTime := List.le_of_mem_argmax hlf hmm
      have hmf := List.mem_filter.mp (List.argmax_mem hmm)
      refine ⟨m.createdTime, ?_, hle, m, hmf.1, hmf.2, rfl⟩
      simp [computeSince, lastSyncedLead, hargmax]

/-- A second stored lead for user A with a later `createdTime`. -/
def lead1 : Lead :=
  { lead0 with leadId := "L2", createdTime := 9 }

/-- Closed instance of C2: with stored `createdTime`s 3 and 9, the computed
watermark is an upper bound of 3 and is attained by a stored lead. -/
theorem watermark_correct_witness :
    ∃ t, computeSince [lead0, lead1] "A" none = some t ∧ lead0.createdTime ≤ t ∧
      ∃ m ∈ [lead0, lead1], leadMatches "A" none m = true ∧ m.createdTime = t :=
  (watermark_correct [lead0, lead1] "A" none).2.1 lead0 (by decide) (by decide)

/-- **C5**: every path that creates or updates a credential — a
`saveUserToken` call (used by both the token-save and token-exchange
endpoints) and any user save whose pre-save hook runs over a modified
`facebookApps` array — leaves every stored credential with a non-null,
non-blank `appName` (`len(trim(appName)) > 0`). -/
theorem appName_invariant :
    (∀ (ts : String) (now : Time) (apps : List FBApp) (app : FBApp),
      app ∈ normalizeApps ts now apps → appNameBlank app.appName = false) ∧
    (∀ (user : User) (td : TokenData) (genMongoId genId ts : String) (now : Time)
        (app : FBApp),
      app ∈ (saveUserToken user td genMongoId genId ts now).facebookApps →
      appNameBlank app.appName = false) ∧
    (∀ n, appNameBlank n = false → ∃ s, n = some s ∧ 0 < (jsTrim s).length) := by
  refine ⟨normalizeApps_not_blank, ?_, ?_⟩
  · intro user td genMongoId genId ts now app happ
    exact normalizeApps_not_blank ts now _ app happ
  · intro n hn
    match n with
    | none => simp [appNameBlank] at hn
    | some s =>
      refine ⟨s, rfl, ?_⟩
      have hb : (jsTrim s == "") = false := by
        simp only [appNameBlank] at hn
        exact (Bool.or_eq_false_iff.mp hn).2
      exact jsTrim_length_pos s (by simpa using hb)

/-- Closed instance of C5: the hook rewrites a whitespace-only `appName`
into the generated non-blank default. -/
theorem appName_invariant_witness :
    appNameBlank
      ({ mongoId := "m1", appId := none, appName := some "Facebook App (t)",
         accessToken := "tok", tokenType := "short_lived", expiresAt := none,
         createdAt := some 0 } : FBApp).appName = false :=
  appName_invariant.1 "t" 0
    [{ mongoId := "m1", appId := none, appName := some "   ", accessToken := "tok",
       tokenType := "", expiresAt := none, createdAt := none }]
    { mongoId := "m1", appId := none, appName := some "Facebook App (t)",
      accessToken := "tok", tokenType := "short_lived", expiresAt := none,
      createdAt := some 0 }
    (by decide)

/-- **C8**: `normalizeLead` is total on object inputs: a missing
`field_data` array is treated as empty, a field entry without values
yields a null value, the field name is lowercased (defaulting to
`"unknown"` when absent), and a missing `created_time` defaults to the
current time. -/
theorem normalizeLead_total :
    (∀ (raw : RawLead) (fid : String) (fn pid pn : Option String) (now : Time),
      normalizeLead (some raw) fid fn pid pn now =
        Except.ok (normalizeLeadObj raw fid fn pid pn now)) ∧
    (∀ (raw : RawLead) (fid : String) (fn pid pn : Option String) (now : Time),
      raw.field_data = none → (normalizeLeadObj raw fid fn pid pn now).fieldData = []) ∧
    (∀ (raw : RawLead) (fid : String) (fn pid pn : Option String) (now : Time),
      raw.created_time = none → (normalizeLeadObj raw fid fn pid pn now).createdTime = now) ∧
    (∀ f : RawField, (f.values = none ∨ f.values = some []) →
      (normalizeField f).value = none) ∧
    (∀ f : RawField, f.name = none → (normalizeField f).name = "unknown") ∧
    (∀ (f : RawField) (s : String), f.name = some s →
      (normalizeField f).name = jsOrStr (some (jsLower s)) "unknown") := by
  refine ⟨fun _ _ _ _ _ _ => rfl, ?_, ?_, ?_, ?_, ?_⟩
  · intro raw fid fn pid pn now h
    simp [normalizeLeadObj, h]
  · intro raw fid fn pid pn now h
    simp [normalizeLeadObj, h]
  · intro f h
    rcases h with h | h <;> simp [normalizeField, h]
  · intro f h
    rcases hv : f.values with - | l
    · simp [normalizeField, hv, h, jsOrStr]
    · cases l <;> simp [normalizeField, hv, h, jsOrStr]
  · intro f s h
    rcases hv : f.values with - | l
    · simp [normalizeField, hv, h]
    · cases l <;> simp [normalizeField, hv, h]

/-- Closed instance of C8 on a raw lead with no id, no `field_data` and a
value-less field entry. -/
theorem normalizeLead_total_witness :
    normalizeLead (some rawNoId) "F9" none none none 7 =
      Except.ok (normalizeLeadObj rawNoId "F9" none none none 7) ∧
    (normalizeLeadObj rawNoId "F9" none none none 7).fieldData = [] ∧
    (normalizeField { name := none, values := none }).value = none ∧
    (normalizeField { name := none, values := none }).name = "unknown" :=
  ⟨normalizeLead_total.1 rawNoId "F9" none none none 7,
   normalizeLead_total.2.1 rawNoId "F9" none none none 7 rfl,
   normalizeLead_total.2.2.2.1 { name := none, values := none } (Or.inl rfl),
   normalizeLead_total.2.2.2.2.1 { name := none, values := none } rfl⟩

/-- **C6 (amended)**: credential resolution order.  An explicit (truthy)
`appId` is honoured only when the user has at least one stored credential:
it then selects the matching credential or fails with `Facebook app not
found`.  With an empty credential list an explicit `appId` is ignored and
resolution falls through to the legacy token.  Without a usable explicit
`appId`, the first stored credential is used when one exists; else the
legacy token; else the call fails with the no-credential error, and a
failing resolution makes the fetch fail before any form or upstream
work. -/
theorem credential_resolution_order :
    (∀ (users : List User) (userId : String) (appId : Option String),
      findUserById users userId = none →
      validateUserConfig users userId appId = .error "User not found") ∧
    (∀ (users : List User) (userId : String) (user : User) (aid : String) (app : FBApp),
      findUserById users userId = some user → aid ≠ "" → user.facebookApps ≠ [] →
      user.facebookApps.find? (fun a => a.mongoId == aid) = some app →
      validateUserConfig users userId (some aid) =
        .ok { accessToken := app.accessToken, appId := app.mongoId }) ∧
    (∀ (users : List User) (userId : String) (user : User) (aid : String),
      findUserById users userId = some user → aid ≠ "" → user.facebookApps ≠ [] →
      user.facebookApps.find? (fun a => a.mongoId == aid) = none →
      validateUserConfig users userId (some aid) = .error "Facebook app not found") ∧
    (∀ (users : List User) (userId : String) (user : User) (appId : Option String)
        (app0 : FBApp) (rest : List FBApp),
      findUserById users userId = some user → user.facebookApps = app0 :: rest →
      (appId = none ∨ appId = some "") →
      validateUserConfig users userId appId =
        .ok { accessToken := app0.accessToken, appId := app0.mongoId }) ∧
    (∀ (users : List User) (userId : String) (user : User) (appId : Option String)
        (tok : String),
      findUserById users userId = some user → user.facebookApps = [] →
      user.accessToken = some tok → tok ≠ "" →
      validateUserConfig users userId appId = .ok { accessToken := tok, appId := "legacy" }) ∧
    (∀ (users : List User) (userId : String) (user : User) (appId : Option String),
      findUserById users userId = some user → user.facebookApps = [] →
      jsTruthy user.accessToken = false →
      validateUserConfig users userId appId = .error "Facebook Access Token is required") ∧
    (∀ (db : DB) (upstream : String → UpstreamPages) (userId : String)
        (formId appId : Option String) (since : Option Time) (now : Time) (e : String),
      validateUserConfig db.users userId appId = .error e →
      fetchFacebookLeads db upstream userId formId appId since now =
        (.error e, db.forms)) := by
  refine ⟨?_, ?_, ?_, ?_, ?_, ?_, ?_⟩
  · intro users userId appId h
    simp [validateUserConfig, h]
  · intro users userId user aid app hu ha hne hfind
    have hpos : 0 < user.facebookApps.length := List.length_pos.mpr hne
    simp [validateUserConfig, hu, ha, hpos, hfind]
  · intro users userId user aid hu ha hne hfind
    have hpos : 0 < user.facebookApps.length := List.length_pos.mpr hne
    simp [validateUserConfig, hu, ha, hpos, hfind]
  · intro users userId user appId app0 rest hu happs haid
    rcases haid with rfl | rfl
    · simp [validateUserConfig, hu, resolveFallback, happs]
    · simp [validateUserConfig, hu, resolveFallback, happs]
  · intro users userId user appId tok hu happs htok htokne
    rcases appId with - | aid
    · simp [validateUserConfig, hu, resolveFallback, happs, jsTruthy, htok, htokne]
    · simp [validateUserConfig, hu, resolveFallback, happs, jsTruthy, htok, htokne]
  · intro users userId user appId hu happs hfalse
    rcases appId with - | aid
    · simp [validateUserConfig, hu, resolveFallback, happs, hfalse]
    · simp [validateUserConfig, hu, resolveFallback, happs, hfalse]
  · intro db upstream userId formId appId since now e hval
    simp [fetchFacebookLeads, hval]

/-- Counterexample to C6 as stated: with an explicit `appId` that matches
no stored credential but an empty credential list, `validateUserConfig`
does not fail — it silently falls back to the legacy token. -/
theorem credential_resolution_counterexample :
    ({ mongoId := "u1", accessToken := some "legacy-token", facebookApps := [],
       facebookAppId := none, facebookAppSecret := none } : User).facebookApps.find?
        (fun a => a.mongoId == "app-123") = none ∧
    validateUserConfig
      [{ mongoId := "u1", accessToken := some "legacy-token", facebookApps := [],
         facebookAppId := none, facebookAppSecret := none }] "u1" (some "app-123") =
      .ok { accessToken := "legacy-token", appId := "legacy" } := by
  constructor
  · rfl
  · rfl

/-- Closed instance of the amended C6: the explicit-`appId` selection path
on a non-empty credential list. -/
theorem credential_resolution_order_witness :
    validateUserConfig
      [{ mongoId := "u2", accessToken := none,
         facebookApps := [{ mongoId := "cred1", appId := some "9",
                            appName := some "App One", accessToken := "tok-1",
                            tokenType := "long_lived", expiresAt := none,
                            createdAt := some 0 }],
         facebookAppId := none, facebookAppSecret := none }] "u2" (some "cred1") =
      .ok { accessToken := "tok-1", appId := "cred1" } :=
  credential_resolution_order.2.1
    [{ mongoId := "u2", accessToken := none,
       facebookApps := [{ mongoId := "cred1", appId := some "9",
                          appName := some "App One", accessToken := "tok-1",
                          tokenType := "long_lived", expiresAt := none,
                          createdAt := some 0 }],
       facebookAppId := none, facebookAppSecret := none }]
    "u2"
    { mongoId := "u2", accessToken := none,
      facebookApps := [{ mongoId := "cred1", appId := some "9",
                         appName := some "App One", accessToken := "tok-1",
                         tokenType := "long_lived", expiresAt := none,
                         createdAt := some 0 }],
      facebookAppId := none, facebookAppSecret := none }
    "cred1"
    { mongoId := "cred1", appId := some "9", appName := some "App One",
      accessToken := "tok-1", tokenType := "long_lived", expiresAt := none,
      createdAt := some 0 }
    (by decide) (by decide) (by decide) (by decide)

/-- **C7**: on every sync attempt — fully successful, aborted by a later
form's failure, or with per-lead failures and abandoned pagination tails —
every form processed in the run has its stored `lastFetchedAt` set to
now. -/
theorem lastFetchedAt_updated (db : DB) (upstream : String → UpstreamPages)
    (userId : String) (formId appId : Option String) (since : Option Time)
    (now : Time) (cred : ResolvedCredential)
    (res : Except String (List ProcessedLead)) (forms' targetForms : List Form)
    (hval : validateUserConfig db.users userId appId = .ok cred)
    (hres : resolveForms db.forms userId formId appId = .ok targetForms)
    (hok : fetchFacebookLeads db upstream userId formId appId since now = (res, forms'))
    (f' : Form) (hf' : f' ∈ forms')
    (htarget : ∃ tf ∈ processedForms upstream now targetForms, tf.mongoId = f'.mongoId) :
    f'.lastFetchedAt = some now := by
  rw [fetchFacebookLeads.eq_def, hval, hres] at hok
  rcases syncFormsLoop_lastFetchedAt upstream userId since now targetForms db.forms
      res forms' hok f' hf' with hnow | ⟨-, hnone⟩
  · exact hnow
  · obtain ⟨tf, htf, hmid⟩ := htarget
    have hfalse := hnone tf htf
    rw [hmid] at hfalse
    simp at hfalse

/-- A user with only a legacy token, used as a concrete fixture. -/
def userW : User :=
  { mongoId := "u1", accessToken := some "tok", facebookApps := [],
    facebookAppId := none, facebookAppSecret := none }

/-- An active form owned by `userW`, used as a concrete fixture. -/
def formW : Form :=
  { mongoId := "fm1", userId := "u1", formId := "FB1", formName := some "Contact",
    pageId := some "P1", pageName := some "Page", facebookAppId := none,
    lastFetchedAt := none, isActive := true }

/-- The concrete database fixture. -/
def dbW : DB := { users := [userW], forms := [formW], leads := [] }

/-- An upstream that answers every form with one empty page. -/
def upstreamEmpty : String → UpstreamPages :=
  fun _ => [.ok { data := some [], hasNext := false }]

/-- Closed instance of C7: after a sync over `dbW`, the single processed
form carries `lastFetchedAt = 5`. -/
theorem lastFetchedAt_updated_witness :
    ({ formW with lastFetchedAt := some 5 } : Form).lastFetchedAt = some 5 :=
  lastFetchedAt_updated dbW upstreamEmpty "u1" none none none 5
    { accessToken := "tok", appId := "legacy" } (.ok [])
    [{ formW with lastFetchedAt := some 5 }] [formW]
    rfl rfl rfl
    { formW with lastFetchedAt := some 5 } (by decide)
    ⟨formW, by decide, by decide⟩

/-- **C3**: a lead that fails normalization between two well-formed leads
does not abort the sync: both good leads are fetched and counted in
`inserted`, and the bad one is excluded from the result set. -/
theorem sync_partial_failure_isolation
    (db : DB) (upstream : String → UpstreamPages) (userId : String)
    (formId appId : Option String) (now : Time)
    (cred : ResolvedCredential) (form : Form) (A C : RawLead)
    (huid : userId ≠ "")
    (hval : validateUserConfig db.users userId appId = .ok cred)
    (hforms : resolveForms db.forms userId formId appId = .ok [form])
    (hup : upstream form.formId =
      [.ok { data := some [some A, none, some C], hasNext := false }]) :
    fetchFacebookLeads db upstream userId formId appId
        (computeSince db.leads userId formId) now =
      (.ok [{ normalizeLeadObj A form.formId form.formName form.pageId form.pageName now
                with userId := userId },
            { normalizeLeadObj C form.formId form.formName form.pageId form.pageName now
                with userId := userId }],
       db.forms.map (fun f =>
         if f.mongoId == form.mongoId then { f with lastFetchedAt := some now } else f)) ∧
    syncFacebookLeads db upstream userId formId appId now =
      (.ok { totalFetched := 2, inserted := 2, errors := [] },
       { db with
         forms := db.forms.map (fun f =>
           if f.mongoId == form.mongoId then { f with lastFetchedAt := some now } else f),
         leads := (processLeads now db.leads
           [{ normalizeLeadObj A form.formId form.formName form.pageId form.pageName now
                with userId := userId },
            { normalizeLeadObj C form.formId form.formName form.pageId form.pageName now
                with userId := userId }]).1 }) := by
  have hfetchform : fetchLeadsForForm form.formId form.formName form.pageId form.pageName
      now (upstream form.formId) =
      .ok [normalizeLeadObj A form.formId form.formName form.pageId form.pageName now,
           normalizeLeadObj C form.formId form.formName form.pageId form.pageName now] := by
    rw [hup]
    simp [fetchLeadsForForm, normalizeLead]
  have hloop : syncFormsLoop upstream userId (computeSince db.leads userId formId) now
      [form] db.forms =
      (.ok [{ normalizeLeadObj A form.formId form.formName form.pageId form.pageName now
                with userId := userId },
            { normalizeLeadObj C form.formId form.formName form.pageId form.pageName now
                with userId := userId }],
       db.forms.map (fun f =>
         if f.mongoId == form.mongoId then { f with lastFetchedAt := some now } else f)) := by
    simp [syncFormsLoop, hfetchform]
  have hfetch : fetchFacebookLeads db upstream userId formId appId
      (computeSince db.leads userId formId) now =
      (.ok [{ normalizeLeadObj A form.formId form.formName form.pageId form.pageName now
                with userId := userId },
            { normalizeLeadObj C form.formId form.formName form.pageId form.pageName now
                with userId := userId }],
       db.forms.map (fun f =>
         if f.mongoId == form.mongoId then { f with lastFetchedAt := some now } else f)) := by
    rw [fetchFacebookLeads.eq_def, hval, hforms]
    exact hloop
  refine ⟨hfetch, ?_⟩
  simp only [syncFacebookLeads]
  rw [if_neg huid, hfetch]
  rfl

/-- A well-formed raw lead `A`, used as a concrete fixture. -/
def rawA : RawLead :=
  { id := some "LA", created_time := some 1,
    field_data := some [{ name := some "Email", values := some ["a@x.io"] }],
    form_id := none, platform := some "fb", campaign_name := none,
    adset_name := none, ad_name := none, ad_id := none }

/-- A well-formed raw lead `C`, used as a concrete fixture. -/
def rawC : RawLead :=
  { id := some "LC", created_time := some 2,
    field_data := some [{ name := some "Phone", values := some ["123"] }],
    form_id := none, platform := some "fb", campaign_name := none,
    adset_name := none, ad_name := none, ad_id := none }

/-- An upstream whose single page holds `A`, a non-object entry, and `C`. -/
def upstreamABC : String → UpstreamPages :=
  fun _ => [.ok { data := some [some rawA, none, some rawC], hasNext := false }]

/-- Closed instance of C3 over `dbW`: the sync returns
`totalFetched = inserted = 2` with no errors. -/
theorem sync_partial_failure_isolation_witness :
    syncFacebookLeads dbW upstreamABC "u1" none none 5 =
      (.ok { totalFetched := 2, inserted := 2, errors := [] },
       { dbW with
         forms := dbW.forms.map (fun f =>
           if f.mongoId == formW.mongoId then { f with lastFetchedAt := some 5 } else f),
         leads := (processLeads 5 dbW.leads
           [{ normalizeLeadObj rawA formW.formId formW.formName formW.pageId formW.pageName 5
                with userId := "u1" },
            { normalizeLeadObj rawC formW.formId formW.formName formW.pageId formW.pageName 5
                with userId := "u1" }]).1 }) :=
  (sync_partial_failure_isolation dbW upstreamABC "u1" none none 5
    { accessToken := "tok", appId := "legacy" } formW rawA rawC
    (by decide) rfl rfl rfl).2

end MetaCRM
